import Mathlib

/-!
# Shallow embedding of the rust-snake game engine (src/main.rs)

Pure translations of the data model and operations of the game:
`Cell`, `Direction`, `Snake`, `Wall`, `Game` with the key handler
`process_event`, the tick function `update_game_state`, the food
placement loop, and a pure model of the title rendering.

Terminal I/O, timing fields (`time`, `time_step`) and the crossterm
glue are not modelled; rendering is modelled as the list of drawing
commands queued for the terminal.  The RNG (`rand::thread_rng`) is
modelled as an explicit stream of draws, each draw being the pair of
results of the two `gen_range` calls; the `gen_range` contract (result
inside the half-open request range) becomes the `sample_in_range`
predicate.  The food-replacement `loop` consumes draws until one is
accepted, so functions depending on it return `Option`: `none` means
the loop is still spinning when the finite stream of draws runs out.
-/

namespace RustSnake

/-- CELL_SZ from the source: a cell is 2 columns wide and 1 row tall. -/
def CELL_SZ : Nat × Nat := (2, 1)

/-- GND_SZ from the source: the ground is 64 columns by 32 rows. -/
def GND_SZ : Nat × Nat := (64, 32)

/-- Cell from the source.  Rust derives `PartialEq`/`Eq`, which is
field-wise equality over both `pos` and `size`; `DecidableEq` over the
Lean structure is the same relation. -/
structure Cell where
  pos : Nat × Nat
  size : Nat × Nat
deriving DecidableEq

inductive Direction where
  | Up
  | Down
  | Left
  | Right
deriving DecidableEq

def Cell.new (x y : Nat) : Cell :=
  { pos := (x, y), size := CELL_SZ }

/-- Source `clone_with_pos_shift`.  Coordinates are `u16` in Rust;
underflow of the subtractions never occurs in game play (the wall sits
one cell inside the border), so `Nat` truncated subtraction stands in
for the `u16` arithmetic.  The result is built with `Cell.new`, hence
always carries the uniform size, exactly as `Self::new(x, y)` does. -/
def Cell.clone_with_pos_shift (c : Cell) (dir : Direction) (steps : Nat) : Cell :=
  match dir with
  | Direction.Up => Cell.new c.pos.1 (c.pos.2 - steps * c.size.2)
  | Direction.Down => Cell.new c.pos.1 (c.pos.2 + steps * c.size.2)
  | Direction.Left => Cell.new (c.pos.1 - steps * c.size.1) c.pos.2
  | Direction.Right => Cell.new (c.pos.1 + steps * c.size.1) c.pos.2

/-- Reverse of a direction, the local `dir_rev` computation in
`Snake::new`. -/
def Direction.rev : Direction → Direction
  | Direction.Up => Direction.Down
  | Direction.Down => Direction.Up
  | Direction.Left => Direction.Right
  | Direction.Right => Direction.Left

/-- Snake from the source: the `VecDeque<Cell>` body (front = head)
becomes a `List Cell` (head = front). -/
structure Snake where
  body : List Cell
  dir : Direction
deriving DecidableEq

def Snake.new (p : Nat × Nat) (dir : Direction) (len : Nat) : Snake :=
  { body := (List.range len).map
      (fun i => (Cell.mk p CELL_SZ).clone_with_pos_shift dir.rev i),
    dir := dir }

/-- Source `head` is `body.front().unwrap()`; bodies are never empty in
the program, the default cell only totalises the function. -/
def Snake.head (s : Snake) : Cell :=
  s.body.headD (Cell.new 0 0)

def Snake.grow_body (s : Snake) : Snake :=
  { s with body := s.head.clone_with_pos_shift s.dir 1 :: s.body }

def Snake.move_body (s : Snake) : Snake :=
  { s with body := (s.head.clone_with_pos_shift s.dir 1 :: s.body).dropLast }

def Snake.check_bite_body (s : Snake) : Bool :=
  (s.body.drop 1).any (fun c => decide (c = s.head))

def Snake.check_bite_food (s : Snake) (food : Cell) : Bool :=
  decide (s.head = food)

def Snake.check_overlap_food (s : Snake) (food : Cell) : Bool :=
  s.body.any (fun c => decide (c = food))

structure Wall where
  cells : List Cell
deriving DecidableEq

/-- Source `Wall::new`: ranges `1..GND_SZ.0/CELL_SZ.0` (31 values) for
the horizontal runs and `2..GND_SZ.1/CELL_SZ.1` (30 values) for the
vertical runs, chained top, left, right, bottom. -/
def Wall.new : Wall :=
  { cells :=
      (((List.range' 1 (GND_SZ.1 / CELL_SZ.1 - 1)).map
          (fun i => (i * CELL_SZ.1, CELL_SZ.2)) ++
        (List.range' 2 (GND_SZ.2 / CELL_SZ.2 - 2)).map
          (fun i => (CELL_SZ.1, i * CELL_SZ.2)) ++
        (List.range' 2 (GND_SZ.2 / CELL_SZ.2 - 2)).map
          (fun i => (GND_SZ.1 - CELL_SZ.1, i * CELL_SZ.2)) ++
        (List.range' 1 (GND_SZ.1 / CELL_SZ.1 - 1)).map
          (fun i => (i * CELL_SZ.1, GND_SZ.2))).map
        (fun p => Cell.new p.1 p.2)) }

def Snake.check_collide_wall (s : Snake) (w : Wall) : Bool :=
  w.cells.any (fun c => decide (c = s.head))

/-- Game from the source, without the two timing fields (`time`,
`time_step`), which only gate when a tick happens. -/
structure Game where
  wall : Wall
  snake : Snake
  food : Cell
  score : Nat
  is_over : Bool
deriving DecidableEq

def Game.new : Game :=
  { wall := Wall.new,
    snake := Snake.new (GND_SZ.1 / 2, GND_SZ.2 / 2) Direction.Right 3,
    food := Cell.new 30 30,
    score := 0,
    is_over := false }

/-- Contract of the two `gen_range` calls in `update_food_pos`:
`gen_range(1..GND_SZ.0/CELL_SZ.0 - 1)` and
`gen_range(2..GND_SZ.1/CELL_SZ.1 - 1)`. -/
def sample_in_range (ij : Nat × Nat) : Prop :=
  1 ≤ ij.1 ∧ ij.1 < GND_SZ.1 / CELL_SZ.1 - 1 ∧
    2 ≤ ij.2 ∧ ij.2 < GND_SZ.2 / CELL_SZ.2 - 1

instance (ij : Nat × Nat) : Decidable (sample_in_range ij) := by
  unfold sample_in_range
  infer_instance

/-- Source `update_food_pos` applied to one RNG draw `(i, j)`: the new
anchor is `(i * CELL_SZ.0, j * CELL_SZ.1)`; only `food.pos` is
assigned, the size field is untouched. -/
def Game.update_food_pos (g : Game) (ij : Nat × Nat) : Game :=
  { g with food := { g.food with pos := (ij.1 * CELL_SZ.1, ij.2 * CELL_SZ.2) } }

/-- The food-replacement `loop` in `update_game_state`: redraw, exit as
soon as the snake does not overlap the new food.  `none` means every
draw of the stream was rejected, i.e. the loop is still spinning. -/
def Game.place_food_loop : Game → List (Nat × Nat) → Option Game
  | _, [] => none
  | g, ij :: rest =>
    let g2 := g.update_food_pos ij
    if g2.snake.check_overlap_food g2.food then g2.place_food_loop rest else some g2

/-- Source `update_game_state`: first the collision check on the
current head sets `is_over` (falling through, not returning), then the
food check selects grow-and-replace-food versus move. -/
def Game.update_game_state (g : Game) (rng : List (Nat × Nat)) : Option Game :=
  let g1 :=
    if g.snake.check_bite_body || g.snake.check_collide_wall g.wall
      then { g with is_over := true } else g
  if g1.snake.check_bite_food g1.food then
    Game.place_food_loop
      { g1 with score := g1.score + 1, snake := g1.snake.grow_body } rng
  else
    some { g1 with snake := g1.snake.move_body }

/-- Key events as matched by `process_event`: the four arrows, the
character q, and the catch-all arm for every other event. -/
inductive Key where
  | Up
  | Down
  | Left
  | Right
  | CharQ
  | Other
deriving DecidableEq

/-- Source `process_event` restricted to the state change made for one
read event (the drain of further buffered events reads and discards,
leaving the state alone). -/
def Game.process_event (g : Game) (k : Key) : Game :=
  match k with
  | Key.Up =>
    if g.snake.dir ≠ Direction.Down
      then { g with snake := { g.snake with dir := Direction.Up } } else g
  | Key.Down =>
    if g.snake.dir ≠ Direction.Up
      then { g with snake := { g.snake with dir := Direction.Down } } else g
  | Key.Left =>
    if g.snake.dir ≠ Direction.Right
      then { g with snake := { g.snake with dir := Direction.Left } } else g
  | Key.Right =>
    if g.snake.dir ≠ Direction.Left
      then { g with snake := { g.snake with dir := Direction.Right } } else g
  | Key.CharQ => { g with is_over := true }
  | Key.Other => g

/-- One tick of the outer loop `looping`, as seen by the game state:
the keys applied by `process_event` since the previous tick, and the
RNG draws available to the tick. -/
structure TickIn where
  keys : List Key
  rng : List (Nat × Nat)

/-- Iterations of `looping` that reach `update_game_state`, with the
`while !is_over` guard checked at the top of each iteration. -/
def Game.run_ticks : Game → List TickIn → Option Game
  | g, [] => some g
  | g, t :: rest =>
    if g.is_over then some g
    else
      match (t.keys.foldl Game.process_event g).update_game_state t.rng with
      | none => none
      | some g2 => g2.run_ticks rest

/-- Holds when, at every tick of the run, the prospective head (head
shifted one step in the heading in force after that tick's input) is
not the food cell. -/
def prospective_avoids : Game → List TickIn → Bool
  | _, [] => true
  | g, t :: rest =>
    g.is_over ||
      (let gk := t.keys.foldl Game.process_event g
       decide (gk.snake.head.clone_with_pos_shift gk.snake.dir 1 ≠ gk.food) &&
         match gk.update_game_state t.rng with
         | none => true
         | some g2 => prospective_avoids g2 rest)

/-- Colors used by the renderer, including the two `Stylize` colors of
the title line. -/
inductive RColor where
  | red
  | blue
  | white
  | magenta
  | green
deriving DecidableEq

/-- One queued terminal command: the screen clear, a styled text print
at a position, or one full-block glyph at a position. -/
inductive RCmd where
  | clear
  | text (pos : Nat × Nat) (s : String) (c : RColor)
  | block (pos : Nat × Nat) (c : RColor)
deriving DecidableEq

/-- Source `Cell::render`: one block per character cell of the
rectangle, outer loop over x, inner over y. -/
def Cell.render_cmds (c : Cell) (col : RColor) : List RCmd :=
  (List.range' c.pos.1 c.size.1).flatMap
    (fun x => (List.range' c.pos.2 c.size.2).map (fun y => RCmd.block (x, y) col))

def Snake.render_cmds (s : Snake) : List RCmd :=
  s.body.flatMap (fun c => c.render_cmds RColor.blue)

def Wall.render_cmds (w : Wall) : List RCmd :=
  w.cells.flatMap (fun c => c.render_cmds RColor.white)

/-- Source `render_title`: the magenta title literal at (10, 0) and the
green formatted score at (40, 0). -/
def Game.render_title_cmds (g : Game) : List RCmd :=
  [RCmd.text (10, 0) "Rust Snake Game" RColor.magenta,
   RCmd.text (40, 0) ("Score: " ++ toString g.score) RColor.green]

/-- Source `Game::render`: clear, then title, snake, food, wall. -/
def Game.render_cmds (g : Game) : List RCmd :=
  RCmd.clear ::
    (g.render_title_cmds ++ g.snake.render_cmds ++
      g.food.render_cmds RColor.red ++ g.wall.render_cmds)

end RustSnake

namespace RustSnake

/-! ## Frame lemmas about the operations -/

lemma process_event_skeleton (g : Game) (k : Key) :
    (g.process_event k).snake.body = g.snake.body ∧
      (g.process_event k).food = g.food ∧
      (g.process_event k).score = g.score ∧
      (g.process_event k).wall = g.wall := by
  cases k <;>
    first
      | exact ⟨rfl, rfl, rfl, rfl⟩
      | (simp only [Game.process_event]
         split <;> exact ⟨rfl, rfl, rfl, rfl⟩)

lemma foldl_process_event_skeleton (keys : List Key) : ∀ g : Game,
    (keys.foldl Game.process_event g).snake.body = g.snake.body ∧
      (keys.foldl Game.process_event g).food = g.food ∧
      (keys.foldl Game.process_event g).score = g.score ∧
      (keys.foldl Game.process_event g).wall = g.wall := by
  induction keys with
  | nil => intro g; exact ⟨rfl, rfl, rfl, rfl⟩
  | cons k ks ih =>
    intro g
    obtain ⟨h1, h2, h3, h4⟩ := process_event_skeleton g k
    obtain ⟨i1, i2, i3, i4⟩ := ih (g.process_event k)
    exact ⟨by rw [List.foldl_cons, i1, h1], by rw [List.foldl_cons, i2, h2],
      by rw [List.foldl_cons, i3, h3], by rw [List.foldl_cons, i4, h4]⟩

lemma snake_head_of_body_eq {s t : Snake} (h : s.body = t.body) : s.head = t.head := by
  simp [Snake.head, h]

lemma place_food_loop_frame (rng : List (Nat × Nat)) : ∀ g g2 : Game,
    g.place_food_loop rng = some g2 →
      g2.snake = g.snake ∧ g2.wall = g.wall ∧ g2.score = g.score ∧
        g2.is_over = g.is_over ∧ g2.food.size = g.food.size ∧
        g2.snake.check_overlap_food g2.food = false := by
  induction rng with
  | nil => intro g g2 h; simp [Game.place_food_loop] at h
  | cons ij rest ih =>
    intro g g2 h
    simp only [Game.place_food_loop] at h
    split at h
    · have h2 := ih (g.update_food_pos ij) g2 h
      simpa [Game.update_food_pos] using h2
    · rename_i hov
      have h3 := Option.some.inj h
      subst h3
      refine ⟨rfl, rfl, rfl, rfl, rfl, ?_⟩
      simpa using hov

lemma place_food_loop_sample (rng : List (Nat × Nat)) : ∀ g g2 : Game,
    g.place_food_loop rng = some g2 →
      ∃ ij ∈ rng, g2.food.pos = (ij.1 * CELL_SZ.1, ij.2 * CELL_SZ.2) := by
  induction rng with
  | nil => intro g g2 h; simp [Game.place_food_loop] at h
  | cons ij rest ih =>
    intro g g2 h
    simp only [Game.place_food_loop] at h
    split at h
    · obtain ⟨ij2, hmem, hpos⟩ := ih (g.update_food_pos ij) g2 h
      exact ⟨ij2, List.mem_cons_of_mem _ hmem, hpos⟩
    · have h3 := Option.some.inj h
      subst h3
      exact ⟨ij, List.mem_cons_self _ _, rfl⟩

lemma collide_if_eq (g : Game) :
    (if g.snake.check_bite_body || g.snake.check_collide_wall g.wall
        then { g with is_over := true } else g) =
      { g with is_over :=
          g.is_over || (g.snake.check_bite_body || g.snake.check_collide_wall g.wall) } := by
  cases hc : (g.snake.check_bite_body || g.snake.check_collide_wall g.wall) <;> simp [hc]

lemma update_state_step (g : Game) (rng : List (Nat × Nat))
    (h : g.snake.check_bite_food g.food = false) :
    g.update_game_state rng =
      some { g with
        is_over := g.is_over || (g.snake.check_bite_body || g.snake.check_collide_wall g.wall),
        snake := g.snake.move_body } := by
  unfold Game.update_game_state
  cases hc : (g.snake.check_bite_body || g.snake.check_collide_wall g.wall) <;>
    simp [hc, h]

lemma update_state_eat (g : Game) (rng : List (Nat × Nat))
    (h : g.snake.check_bite_food g.food = true) :
    g.update_game_state rng =
      Game.place_food_loop
        { g with
          is_over := g.is_over || (g.snake.check_bite_body || g.snake.check_collide_wall g.wall),
          score := g.score + 1,
          snake := g.snake.grow_body } rng := by
  unfold Game.update_game_state
  cases hc : (g.snake.check_bite_body || g.snake.check_collide_wall g.wall) <;>
    simp [hc, h]

lemma move_body_length (s : Snake) : s.move_body.body.length = s.body.length := by
  obtain ⟨b, d⟩ := s
  cases b with
  | nil => rfl
  | cons c cs => simp [Snake.move_body, List.length_dropLast]

lemma grow_body_length (s : Snake) : s.grow_body.body.length = s.body.length + 1 := by
  simp [Snake.grow_body]

lemma move_body_dir (s : Snake) : s.move_body.dir = s.dir := rfl

lemma grow_body_dir (s : Snake) : s.grow_body.dir = s.dir := rfl

lemma move_body_cons (s : Snake) (c : Cell) (cs : List Cell) (hb : s.body = c :: cs) :
    s.move_body.body = s.head.clone_with_pos_shift s.dir 1 :: (c :: cs).dropLast := by
  obtain ⟨b, d⟩ := s
  simp only at hb
  subst hb
  cases cs with
  | nil => simp [Snake.move_body]
  | cons c2 cs2 => simp [Snake.move_body, List.dropLast_cons₂]

end RustSnake

namespace RustSnake

/-! ## Claims C7, C8, C9, C10 -/

/-- Boundary pinned by the spec: top cells at y = H, bottom cells at
y = GH, left cells at x = W, right cells at x = GW − W, horizontal runs
spanning x ∈ {W, 2W, …, GW − W}, vertical runs spanning y ∈ {H, …, GH},
corners included.  Written from the spec's words for comparison with
the cells of `Wall.new`. -/
def pinned_boundary : List (Nat × Nat) :=
  (List.range' 1 31).map (fun k => (k * CELL_SZ.1, CELL_SZ.2)) ++
    (List.range' 1 31).map (fun k => (k * CELL_SZ.1, GND_SZ.2)) ++
    (List.range' 1 32).map (fun j => (CELL_SZ.1, j * CELL_SZ.2)) ++
    (List.range' 1 32).map (fun j => (GND_SZ.1 - CELL_SZ.1, j * CELL_SZ.2))

set_option maxRecDepth 20000 in
/-- C8: the set of anchor positions of the constructed wall equals the
pinned boundary {top at y = 1, bottom at y = 32, left at x = 2, right
at x = 62}, horizontal runs over x ∈ {2, 4, …, 62}, corners included. -/
theorem wall_matches_pinned_boundary :
    (Wall.new.cells.map Cell.pos).toFinset = pinned_boundary.toFinset := by
  decide

/-- C7 counterexample: two `Cell` values with the same anchor but
different sizes are not equal, so equality does not compare the anchor
only. -/
theorem cell_eq_size_cex :
    Cell.mk (5, 5) (1, 1) ≠ Cell.mk (5, 5) (3, 3) ∧
      (Cell.mk (5, 5) (1, 1)).pos = (Cell.mk (5, 5) (3, 3)).pos := by
  decide

/-- C7 amended: two `Cell` values are equal iff both their anchors and
their sizes are equal; for cells carrying the uniform size `CELL_SZ` —
all cells the program ever constructs — equality is equivalent to
anchor equality. -/
theorem cell_eq_iff (a b : Cell) :
    (a = b ↔ a.pos = b.pos ∧ a.size = b.size) ∧
      (a.size = CELL_SZ → b.size = CELL_SZ → (a = b ↔ a.pos = b.pos)) := by
  obtain ⟨ap, asz⟩ := a
  obtain ⟨bp, bsz⟩ := b
  constructor
  · simp
  · rintro rfl rfl
    simp

/-- C7 witness: the amended equivalence evaluated at two concrete
uniform-size cells. -/
theorem cell_eq_iff_witness :
    (Cell.new 4 6 = Cell.new 8 6 ↔ (Cell.new 4 6).pos = (Cell.new 8 6).pos) :=
  (cell_eq_iff (Cell.new 4 6) (Cell.new 8 6)).2 rfl rfl

/-- C9 counterexample: no command of a rendered frame (here the frame
of the freshly constructed game) writes the literal "Snake Game"; the
command at (10, 0) carries the literal "Rust Snake Game". -/
theorem render_title_literal_cex :
    RCmd.text (10, 0) "Snake Game" RColor.magenta ∉ Game.new.render_cmds ∧
      RCmd.text (10, 0) "Rust Snake Game" RColor.magenta ∈ Game.new.render_cmds := by
  decide

/-- C9 amended: every rendered frame writes the title literal
"Rust Snake Game" at (10, 0) in magenta and the score literal
"Score: N" (N the current score) at (40, 0) in green. -/
theorem render_title_literals (g : Game) :
    RCmd.text (10, 0) "Rust Snake Game" RColor.magenta ∈ g.render_cmds ∧
      RCmd.text (40, 0) ("Score: " ++ toString g.score) RColor.green ∈ g.render_cmds := by
  constructor <;>
    simp [Game.render_cmds, Game.render_title_cmds]

/-- C10: the freshly constructed game has the fixed food cell at
(30, 30) — cell-aligned and strictly inside the interior — the food
does not overlap the initial snake (head (32, 16), heading Right,
length 3), the score is 0 and the game is not over. -/
theorem init_game_facts :
    Game.new.food = Cell.new 30 30 ∧
      Game.new.food.pos.1 % CELL_SZ.1 = 0 ∧
      Game.new.food.pos.2 % CELL_SZ.2 = 0 ∧
      CELL_SZ.1 < Game.new.food.pos.1 ∧
      Game.new.food.pos.1 < GND_SZ.1 - CELL_SZ.1 ∧
      CELL_SZ.2 < Game.new.food.pos.2 ∧
      Game.new.food.pos.2 < GND_SZ.2 ∧
      Game.new.snake.check_overlap_food Game.new.food = false ∧
      Game.new.snake.head.pos = (32, 16) ∧
      Game.new.snake.dir = Direction.Right ∧
      Game.new.snake.body.length = 3 ∧
      Game.new.score = 0 ∧
      Game.new.is_over = false := by
  decide

end RustSnake

namespace RustSnake

/-! ## Claims C1 and C2 -/

/-- Game whose head is one step short of the right wall, heading
Right: the prospective head is a wall cell. -/
def c1cex : Game :=
  { Game.new with
    snake := { body := [Cell.new 60 16, Cell.new 58 16, Cell.new 56 16],
               dir := Direction.Right } }

/-- State produced by one tick of `c1cex`. -/
def c1cex_next : Game :=
  { c1cex with
    snake := { body := [Cell.new 62 16, Cell.new 60 16, Cell.new 58 16],
               dir := Direction.Right } }

/-- C1 counterexample: with the prospective head on the wall, the tick
neither enters Over nor leaves the state unchanged — the snake moves
onto the wall and `is_over` stays false. -/
theorem collision_prospective_cex :
    c1cex.snake.head.clone_with_pos_shift c1cex.snake.dir 1 ∈ Wall.new.cells ∧
      c1cex.update_game_state [] = some c1cex_next ∧
      c1cex_next.is_over = false ∧
      c1cex_next.snake.body ≠ c1cex.snake.body := by
  decide

/-- C1 amended: collision is evaluated against the current head at the
start of the tick; when that head is a wall cell or equals a cell of
body[1..], `is_over` is set, but the tick still executes the food
branch — in particular when the head is not the food the snake still
steps (food and score unchanged by the step) — and the heading is
unchanged in every completed outcome. -/
theorem collision_tick_still_mutates (g : Game) (rng : List (Nat × Nat))
    (hcol : g.snake.check_bite_body = true ∨ g.snake.check_collide_wall g.wall = true) :
    (g.snake.check_bite_food g.food = false →
      g.update_game_state rng =
        some { g with is_over := true, snake := g.snake.move_body }) ∧
      (∀ g2, g.update_game_state rng = some g2 →
        g2.is_over = true ∧ g2.snake.dir = g.snake.dir) := by
  have hc : (g.snake.check_bite_body || g.snake.check_collide_wall g.wall) = true := by
    rcases hcol with h | h <;> simp [h]
  constructor
  · intro hf
    rw [update_state_step g rng hf, hc]
    simp
  · intro g2 h2
    cases hf : g.snake.check_bite_food g.food
    · rw [update_state_step g rng hf, hc] at h2
      have h3 := Option.some.inj h2
      subst h3
      exact ⟨by simp, rfl⟩
    · rw [update_state_eat g rng hf, hc] at h2
      obtain ⟨hs, _, _, ho, _, _⟩ := place_food_loop_frame rng _ g2 h2
      refine ⟨?_, ?_⟩
      · rw [ho]; simp
      · rw [hs]; rfl

/-- Game whose head is on the left wall, heading Down. -/
def c1wit : Game :=
  { Game.new with
    snake := { body := [Cell.new 2 10], dir := Direction.Down } }

/-- C1 witness: the amended theorem evaluated on a game whose head sits
on the left wall. -/
theorem collision_tick_still_mutates_witness :
    c1wit.update_game_state [] =
      some { c1wit with is_over := true, snake := c1wit.snake.move_body } :=
  (collision_tick_still_mutates c1wit [] (Or.inr (by decide))).1 (by decide)

/-- Game whose head is already on the right wall, heading Right. -/
def c2cex : Game :=
  { Game.new with
    snake := { body := [Cell.new 62 16, Cell.new 60 16, Cell.new 58 16],
               dir := Direction.Right } }

/-- State produced by one tick of `c2cex`. -/
def c2cex_next : Game :=
  { c2cex with
    is_over := true,
    snake := { body := [Cell.new 64 16, Cell.new 62 16, Cell.new 60 16],
               dir := Direction.Right } }

/-- C2 counterexample: on this tick both outcomes fire — the game
enters Over and the snake also steps — so a tick can fire more than
one of the three outcomes. -/
theorem tick_branch_dichotomy_cex :
    c2cex.update_game_state [] = some c2cex_next ∧
      c2cex.is_over = false ∧
      c2cex_next.is_over = true ∧
      c2cex_next.snake.body ≠ c2cex.snake.body := by
  decide

/-- C2 amended: every tick fires exactly one of
{grow-and-replace-food, step} — step exactly when the head is not the
food (body stepped, score and food unchanged), grow exactly when the
head is the food (length + 1, score + 1, food replaced off the body) —
and Over fires in addition (not instead) exactly when the current head
is a wall cell or a cell of body[1..]. -/
theorem tick_branch_dichotomy (g : Game) (rng : List (Nat × Nat)) :
    (g.snake.check_bite_food g.food = false →
      g.update_game_state rng =
        some { g with
          is_over :=
            g.is_over || (g.snake.check_bite_body || g.snake.check_collide_wall g.wall),
          snake := g.snake.move_body }) ∧
      (g.snake.check_bite_food g.food = true →
        ∀ g2, g.update_game_state rng = some g2 →
          g2.snake.body.length = g.snake.body.length + 1 ∧
            g2.score = g.score + 1 ∧
            g2.snake.check_overlap_food g2.food = false) ∧
      (∀ g2, g.update_game_state rng = some g2 →
        g2.is_over =
          (g.is_over || (g.snake.check_bite_body || g.snake.check_collide_wall g.wall))) := by
  refine ⟨fun hf => update_state_step g rng hf, ?_, ?_⟩
  · intro hf g2 h2
    rw [update_state_eat g rng hf] at h2
    obtain ⟨hs, _, hsc, _, _, hovl⟩ := place_food_loop_frame rng _ g2 h2
    refine ⟨?_, ?_, hovl⟩
    · rw [hs]
      exact grow_body_length g.snake
    · exact hsc
  · intro g2 h2
    cases hf : g.snake.check_bite_food g.food
    · rw [update_state_step g rng hf] at h2
      have h3 := Option.some.inj h2
      subst h3
      rfl
    · rw [update_state_eat g rng hf] at h2
      obtain ⟨_, _, _, ho, _, _⟩ := place_food_loop_frame rng _ g2 h2
      exact ho

/-- C2 witness: the step branch of the amended theorem evaluated on the
freshly constructed game. -/
theorem tick_branch_dichotomy_witness :
    Game.new.update_game_state [] =
      some { Game.new with
        is_over :=
          Game.new.is_over ||
            (Game.new.snake.check_bite_body ||
              Game.new.snake.check_collide_wall Game.new.wall),
        snake := Game.new.snake.move_body } :=
  (tick_branch_dichotomy Game.new []).1 (by decide)

end RustSnake

namespace RustSnake

/-! ## Claims C3 and C4 -/

/-- State after placing food from the single draw (1, 10): the anchor
is (2, 10), on the left wall column. -/
def c3cex_next : Game := { Game.new with food := Cell.new 2 10 }

/-- C3 counterexample: the in-range draw (1, 10) is accepted by the
placement loop and yields a food cell equal to a wall cell — the food
anchor x = 2 is not strictly inside {2 < x < 62}. -/
theorem food_on_left_wall_cex :
    sample_in_range (1, 10) ∧
      Game.new.place_food_loop [(1, 10)] = some c3cex_next ∧
      c3cex_next.food ∈ Wall.new.cells ∧
      ¬ CELL_SZ.1 < c3cex_next.food.pos.1 := by
  decide

/-- C3 amended: after the placement loop completes, the food anchor is
a multiple of (2, 1), lies in {2 ≤ x ≤ 60, 1 < y < 32} — the lower x
bound is W itself, so the food can coincide with a left-wall cell —
and does not equal any snake body cell. -/
theorem food_placement_bounds (g g2 : Game) (rng : List (Nat × Nat))
    (hr : ∀ ij ∈ rng, sample_in_range ij)
    (h : g.place_food_loop rng = some g2) :
    g2.food.pos.1 % CELL_SZ.1 = 0 ∧
      g2.food.pos.2 % CELL_SZ.2 = 0 ∧
      CELL_SZ.1 ≤ g2.food.pos.1 ∧
      g2.food.pos.1 ≤ GND_SZ.1 - 2 * CELL_SZ.1 ∧
      CELL_SZ.2 < g2.food.pos.2 ∧
      g2.food.pos.2 < GND_SZ.2 ∧
      g2.snake.check_overlap_food g2.food = false := by
  obtain ⟨ij, hmem, hpos⟩ := place_food_loop_sample rng g g2 h
  have hb : 1 ≤ ij.1 ∧ ij.1 < 31 ∧ 2 ≤ ij.2 ∧ ij.2 < 31 := hr ij hmem
  have hx : g2.food.pos.1 = ij.1 * 2 := by rw [hpos]; rfl
  have hy : g2.food.pos.2 = ij.2 := by rw [hpos]; simp [CELL_SZ]
  have hovl := (place_food_loop_frame rng g g2 h).2.2.2.2.2
  refine ⟨?_, ?_, ?_, ?_, ?_, ?_, hovl⟩ <;>
    simp only [hx, hy, CELL_SZ, GND_SZ] <;> omega

/-- C3 witness: the amended bounds evaluated on the result of placing
food in the fresh game from the draw (5, 5). -/
theorem food_placement_bounds_witness :
    ({ Game.new with food := Cell.new 10 5 } : Game).food.pos.1 % CELL_SZ.1 = 0 ∧
      ({ Game.new with food := Cell.new 10 5 } : Game).food.pos.2 % CELL_SZ.2 = 0 ∧
      CELL_SZ.1 ≤ ({ Game.new with food := Cell.new 10 5 } : Game).food.pos.1 ∧
      ({ Game.new with food := Cell.new 10 5 } : Game).food.pos.1 ≤
        GND_SZ.1 - 2 * CELL_SZ.1 ∧
      CELL_SZ.2 < ({ Game.new with food := Cell.new 10 5 } : Game).food.pos.2 ∧
      ({ Game.new with food := Cell.new 10 5 } : Game).food.pos.2 < GND_SZ.2 ∧
      ({ Game.new with food := Cell.new 10 5 } : Game).snake.check_overlap_food
        ({ Game.new with food := Cell.new 10 5 } : Game).food = false :=
  food_placement_bounds Game.new { Game.new with food := Cell.new 10 5 } [(5, 5)]
    (by decide) (by decide)

/-- All cell-aligned anchors the placement procedure can produce:
(2i, j) for i ∈ {1, …, 30}, j ∈ {2, …, 30}. -/
def placeable_cells : List Cell :=
  (List.range' 1 30).flatMap
    (fun i => (List.range' 2 29).map (fun j => Cell.new (i * CELL_SZ.1) (j * CELL_SZ.2)))

/-- Game whose snake occupies every placeable cell. -/
def full_board_game : Game :=
  { Game.new with snake := { body := placeable_cells, dir := Direction.Right } }

lemma sample_cell_mem_placeable (ij : Nat × Nat) (h : sample_in_range ij) :
    Cell.new (ij.1 * CELL_SZ.1) (ij.2 * CELL_SZ.2) ∈ placeable_cells := by
  have hb : 1 ≤ ij.1 ∧ ij.1 < 31 ∧ 2 ≤ ij.2 ∧ ij.2 < 31 := h
  simp only [placeable_cells, List.mem_flatMap, List.mem_map]
  refine ⟨ij.1, ?_, ij.2, ?_, rfl⟩
  · rw [List.mem_range'_1]; omega
  · rw [List.mem_range'_1]; omega

lemma place_food_loop_full (rng : List (Nat × Nat)) : ∀ g : Game,
    g.snake.body = placeable_cells → g.food.size = CELL_SZ →
      (∀ ij ∈ rng, sample_in_range ij) → g.place_food_loop rng = none := by
  induction rng with
  | nil => intro g _ _ _; rfl
  | cons ij rest ih =>
    intro g hbody hsz hr
    have hfood : (g.update_food_pos ij).food =
        Cell.new (ij.1 * CELL_SZ.1) (ij.2 * CELL_SZ.2) := by
      show Cell.mk _ g.food.size = _
      rw [hsz]
      rfl
    have hov : (g.update_food_pos ij).snake.check_overlap_food
        (g.update_food_pos ij).food = true := by
      have hsnake : (g.update_food_pos ij).snake = g.snake := rfl
      rw [Snake.check_overlap_food, hsnake, hfood, hbody, List.any_eq_true]
      exact ⟨_, sample_cell_mem_placeable ij (hr ij (List.mem_cons_self _ _)),
        decide_eq_true rfl⟩
    simp only [Game.place_food_loop, hov, if_true]
    refine ih (g.update_food_pos ij) hbody ?_ ?_
    · rw [hfood]; rfl
    · exact fun ij2 hm => hr ij2 (List.mem_cons_of_mem _ hm)

/-- C4: the code evaluated at the failing input — with the snake on
every placeable cell, every in-range draw is rejected, so the
placement loop completes for no finite stream of draws; the code has
no detection of the full board and no transition to a terminal state. -/
theorem full_board_loop_spins (rng : List (Nat × Nat))
    (hr : ∀ ij ∈ rng, sample_in_range ij) :
    full_board_game.place_food_loop rng = none :=
  place_food_loop_full rng full_board_game rfl rfl hr

/-- C4 witness: the spinning loop evaluated on a concrete draw
stream. -/
theorem full_board_loop_spins_witness :
    full_board_game.place_food_loop [(1, 2)] = none :=
  full_board_loop_spins [(1, 2)] (by decide)

end RustSnake

namespace RustSnake

/-! ## Claims C6 and C5 -/

/-- The arrow key requesting a given direction. -/
def key_of_dir : Direction → Key
  | Direction.Up => Key.Up
  | Direction.Down => Key.Down
  | Direction.Left => Key.Left
  | Direction.Right => Key.Right

/-- The direction requested by a key, if it is an arrow key. -/
def dir_of_key : Key → Option Direction
  | Key.Up => some Direction.Up
  | Key.Down => some Direction.Down
  | Key.Left => some Direction.Left
  | Key.Right => some Direction.Right
  | Key.CharQ => none
  | Key.Other => none

/-- C6: pressing the arrow for the direction opposite to the current
heading leaves the game (hence the heading) unchanged; pressing an
arrow for a direction perpendicular to the heading sets the heading to
it; the q key sets `is_over`; any other event leaves the game
unchanged. -/
theorem input_heading_rules (g : Game) :
    g.process_event (key_of_dir g.snake.dir.rev) = g ∧
      (∀ k d, dir_of_key k = some d → d ≠ g.snake.dir → d ≠ g.snake.dir.rev →
        (g.process_event k).snake.dir = d) ∧
      (g.process_event Key.CharQ).is_over = true ∧
      g.process_event Key.Other = g := by
  refine ⟨?_, ?_, rfl, rfl⟩
  · cases hd : g.snake.dir <;>
      simp [Game.process_event, key_of_dir, Direction.rev, hd]
  · intro k d hk hne hner
    cases k <;> cases hd : g.snake.dir <;>
      simp_all [dir_of_key, Game.process_event, Direction.rev]

/-- C6 witness: the rules evaluated on the fresh game (heading Right):
the perpendicular Up key turns the heading Up, the opposite arrow
leaves the game unchanged, and q sets `is_over`. -/
theorem input_heading_rules_witness :
    (Game.new.process_event Key.Up).snake.dir = Direction.Up ∧
      Game.new.process_event (key_of_dir Game.new.snake.dir.rev) = Game.new ∧
      (Game.new.process_event Key.CharQ).is_over = true :=
  ⟨(input_heading_rules Game.new).2.1 Key.Up Direction.Up rfl (by decide) (by decide),
    (input_heading_rules Game.new).1,
    (input_heading_rules Game.new).2.2.1⟩

lemma tick_step_preserves (gk : Game) (rng : List (Nat × Nat)) (c : Cell)
    (cs : List Cell) (hcs : gk.snake.body = c :: cs)
    (hgkf : gk.snake.check_bite_food gk.food = false) :
    ∃ g3, gk.update_game_state rng = some g3 ∧
      g3.snake.body.length = gk.snake.body.length ∧
      g3.snake.body ≠ [] ∧
      g3.food = gk.food ∧
      g3.snake.head = gk.snake.head.clone_with_pos_shift gk.snake.dir 1 := by
  refine ⟨_, update_state_step gk rng hgkf, ?_, ?_, rfl, ?_⟩
  · exact move_body_length gk.snake
  · show gk.snake.move_body.body ≠ []
    rw [move_body_cons gk.snake c cs hcs]
    exact List.cons_ne_nil _ _
  · show gk.snake.move_body.head = _
    rw [Snake.head, move_body_cons gk.snake c cs hcs, List.headD_cons]

lemma run_ticks_length (ins : List TickIn) : ∀ g : Game,
    g.snake.body ≠ [] →
      g.snake.check_bite_food g.food = false →
      prospective_avoids g ins = true →
      ∀ g2, g.run_ticks ins = some g2 →
        g2.snake.body.length = g.snake.body.length := by
  induction ins with
  | nil =>
    intro g _ _ _ g2 h
    have h3 := Option.some.inj h
    subst h3
    rfl
  | cons t rest ih =>
    intro g hb hf hav g2 hrun
    cases hov : g.is_over with
    | true =>
      simp only [Game.run_ticks, hov, if_true] at hrun
      have h3 := Option.some.inj hrun
      subst h3
      rfl
    | false =>
      simp only [Game.run_ticks, hov, Bool.false_eq_true, if_false] at hrun
      simp only [prospective_avoids, hov, Bool.false_or, Bool.and_eq_true] at hav
      obtain ⟨hav1, hav2⟩ := hav
      generalize hgk : t.keys.foldl Game.process_event g = gk at hrun hav1 hav2
      obtain ⟨hkb, hkf, _, _⟩ := foldl_process_event_skeleton t.keys g
      rw [hgk] at hkb hkf
      have hgkf : gk.snake.check_bite_food gk.food = false := by
        rw [Snake.check_bite_food, snake_head_of_body_eq hkb, hkf]
        exact hf
      cases hcs : gk.snake.body with
      | nil =>
        rw [hcs] at hkb
        exact absurd hkb.symm hb
      | cons c cs =>
        obtain ⟨g3, hup, hlen3, hne3, hfood3, hhead3⟩ :=
          tick_step_preserves gk t.rng c cs hcs hgkf
        rw [hup] at hrun hav2
        have hrun2 : g3.run_ticks rest = some g2 := hrun
        have hav3 : prospective_avoids g3 rest = true := hav2
        have hf3 : g3.snake.check_bite_food g3.food = false := by
          rw [Snake.check_bite_food, hhead3, hfood3]
          exact decide_eq_false (by simpa using hav1)
        have hlen2 := ih g3 hne3 hf3 hav3 g2 hrun2
        calc g2.snake.body.length = g3.snake.body.length := hlen2
          _ = gk.snake.body.length := hlen3
          _ = g.snake.body.length := by rw [hkb]

/-- C5: over any run of ticks from a state whose head is not on the
food — true of every freshly constructed game — in which the
prospective head never equals the food, the body length is unchanged;
and any tick from a state whose head equals the food (food
consumption) increases the body length by exactly one. -/
theorem snake_length_invariant (g : Game) (ins : List TickIn)
    (hb : g.snake.body ≠ [])
    (hf : g.snake.check_bite_food g.food = false)
    (hav : prospective_avoids g ins = true) :
    (∀ g2, g.run_ticks ins = some g2 →
      g2.snake.body.length = g.snake.body.length) ∧
      (∀ (ge ge2 : Game) (rng : List (Nat × Nat)),
        ge.snake.check_bite_food ge.food = true →
        ge.update_game_state rng = some ge2 →
        ge2.snake.body.length = ge.snake.body.length + 1) := by
  constructor
  · exact run_ticks_length ins g hb hf hav
  · intro ge ge2 rng hfe hup
    rw [update_state_eat ge rng hfe] at hup
    obtain ⟨hs, _, _, _, _, _⟩ := place_food_loop_frame rng _ ge2 hup
    rw [hs]
    exact grow_body_length ge.snake

/-- State produced by one food-free tick of the fresh game. -/
def c5wit_next : Game :=
  { Game.new with
    snake := { body := [Cell.new 34 16, Cell.new 32 16, Cell.new 30 16],
               dir := Direction.Right } }

/-- C5 witness: one tick of the fresh game with no key and no RNG draw
keeps the body length at 3. -/
theorem snake_length_invariant_witness :
    Game.new.run_ticks [TickIn.mk [] []] = some c5wit_next ∧
      c5wit_next.snake.body.length = Game.new.snake.body.length :=
  ⟨by decide,
    (snake_length_invariant Game.new [TickIn.mk [] []] (by decide) (by decide)
          (by decide)).1
      c5wit_next (by decide)⟩

end RustSnake
